import Mathlib

/-!
# Verification of the Gladix core subsystems

Shallow embedding, in Lean 4, of the parts of the Gladix endpoint agent that
the specification covers: the kernel-side shared-memory ring producer
(`kernel-driver/src/communications/memory_ring.rs`), the user-side ring
consumer (`user-agent/src/communications/memory_ring.rs`), the rundown gate
and the callback handlers (`kernel-driver/src/callbacks/*`), the IOCTL
pre-unload handler (`kernel-driver/src/communications/ioctl_dispatch.rs`),
the registration orchestrator (`kernel-driver/src/callbacks/mod.rs`), the
registry/image/process filters (`kernel-driver/src/callbacks/filters.rs`),
the hot-patch installer (`hooking-lib/src/hooks.rs`, `manager.rs`) and the
scan cache (`user-agent/src/scanner/cache.rs`).

Machine integers are modelled as `Nat` with explicit `% 2^w` where overflow
matters; raw pointers become `Option` values; byte buffers become `List Nat`;
Windows/NT API calls that can fail are driven by explicit environment records.
Each definition is translated directly from the Rust source it names.
-/

set_option autoImplicit false

namespace Gladix

/-! ## Little-endian codecs

`le32` models `u32::to_le_bytes` (the `as u32` cast truncates, hence the
`% 256` on each byte); `fromLe32` models `u32::from_le_bytes`. -/

def le32 (n : Nat) : List Nat :=
  [n % 256, n / 2 ^ 8 % 256, n / 2 ^ 16 % 256, n / 2 ^ 24 % 256]

def fromLe32 (bs : List Nat) : Nat :=
  match bs with
  | [a, b, c, d] => a + b * 2 ^ 8 + c * 2 ^ 16 + d * 2 ^ 24
  | _ => 0

def le64 (n : Nat) : List Nat :=
  [n % 256, n / 2 ^ 8 % 256, n / 2 ^ 16 % 256, n / 2 ^ 24 % 256,
   n / 2 ^ 32 % 256, n / 2 ^ 40 % 256, n / 2 ^ 48 % 256, n / 2 ^ 56 % 256]

/-! ## Kernel-side ring producer (`kernel-driver/src/communications/memory_ring.rs`)

The mapped data region is a `List Nat` of `cap` bytes; the header cursors
`head`, `tail`, `dropped` are separate fields.  `mapped = false` models a
null `base` pointer (teardown raced). -/

structure KRing where
  mem : List Nat
  head : Nat
  tail : Nat
  dropped : Nat
  cap : Nat
  mapped : Bool
  deriving DecidableEq, Repr

/-- Write the bytes of `src` linearly into `mem` starting at index `off`
(`core::ptr::copy_nonoverlapping` into the data region). -/
def writeRange (mem : List Nat) (off : Nat) (src : List Nat) : List Nat :=
  match src with
  | [] => mem
  | b :: rest => writeRange (mem.set off b) (off + 1) rest

/-- The producer's `copy_circular` helper: write `src.length` bytes starting
at `off`, splitting at the end of the data region exactly as the source does
(`first = min(len, cap - off)`, remainder at offset 0). -/
def kCopyCircular (cap : Nat) (mem : List Nat) (off : Nat) (src : List Nat) : List Nat :=
  if src.length = 0 then mem
  else
    let toEnd := cap - off
    let first := min src.length toEnd
    let mem1 := writeRange mem off (src.take first)
    if src.length - first ≠ 0 then writeRange mem1 0 (src.drop first) else mem1

/-- The `used_before` computation of `push_bytes`: the two-branch modular
difference `(head - tail) mod cap` of the source. -/
def ring_used (cap head tail : Nat) : Nat :=
  if head ≥ tail then head - tail else cap - (tail - head)

/-- The free-space computation of `push_bytes`: `free = cap - used`. -/
def ringFree (r : KRing) : Nat :=
  r.cap - ring_used r.cap r.head r.tail

/-- `MemoryRing::push_bytes`: push a `[u32 len_le][payload]` frame with natural
wrap-around, dropping (and counting) the frame when it can never fit or when
the free space computed from the current cursors is insufficient. -/
def push_bytes (r : KRing) (payload : List Nat) : KRing :=
  if r.mapped = false then r
  else
    let cap := r.cap
    let frame_total := 4 + payload.length
    if frame_total > cap then { r with dropped := r.dropped + 1 }
    else
      let head := r.head
      let tail := r.tail
      let used_before := ring_used cap head tail
      let free_before := cap - used_before
      if free_before < frame_total then { r with dropped := r.dropped + 1 }
      else
        let mem1 := kCopyCircular cap r.mem head (le32 payload.length)
        let after_len := (head + 4) % cap
        let mem2 := kCopyCircular cap mem1 after_len payload
        { r with mem := mem2, head := (head + frame_total) % cap }

/-! ## User-side ring consumer (`user-agent/src/communications/memory_ring.rs`)

The consumer shares the header with the producer, so a `World` is the ring
(whose `tail` field is the shared header tail mirrored by the consumer) plus
the consumer's private `tail` cursor. -/

/-- The wrapping value of the `usize` subtraction `size - off` in a release
build: Rust integer overflow wraps to two's complement there. -/
def usizeSub (size off : Nat) : Nat :=
  if off ≤ size then size - off else 2 ^ 64 - (off - size)

/-- The consumer's `copy_circular`: read `rem` bytes starting at `off`.
The source computes `to_end = size - off` and chunks by `min`; it does NOT
reduce `off` modulo `size` on entry, so when a caller passes `off > size` the
subtraction wraps (release build) and the read chunk comes from past the data
region — bytes the producer never writes, modelled as 0 via `List.getD`.
The recursion is fuelled; `rem + 2` steps always suffice. -/
def cCopyCircular (size : Nat) (mem : List Nat) : Nat → Nat → Nat → List Nat
  | 0, _, _ => []
  | fuel + 1, off, rem =>
    if rem = 0 then []
    else
      let toEnd := usizeSub size off
      let chunk := min rem toEnd
      (List.range chunk).map (fun i => mem.getD (off + i) 0) ++
        cCopyCircular size mem fuel ((off + chunk) % size) (rem - chunk)

structure World where
  ring : KRing
  ctail : Nat
  deriving DecidableEq, Repr

/-- The 4-byte length prefix read (wrap-safe) at the consumer's private tail,
decoded little-endian — the `len` local of `read_next`. -/
def decodedLen (w : World) : Nat :=
  fromLe32 (cCopyCircular w.ring.cap w.ring.mem 6 w.ctail 4)

/-- `MemoryRing::read_next`: return the next complete frame, resynchronising
(`tail = head`, mirrored to the header) on a corrupt length prefix.  Note the
payload copy starts at `w.ctail + 4` — the source passes
`self.tail + LEN_PREFIX as u32` to `copy_circular` without reducing it modulo
`size`, faithfully reproduced here. -/
def read_next (w : World) : World × Option (List Nat) :=
  let head := w.ring.head
  let size := w.ring.cap
  if w.ctail = head then (w, none)
  else
    let len := decodedLen w
    if len = 0 ∨ len > size - 4 then
      ({ w with ctail := head, ring := { w.ring with tail := head } }, none)
    else
      let available := if w.ctail ≤ head then head - w.ctail else size - w.ctail + head
      if available < len + 4 then (w, none)
      else
        let out := cCopyCircular size w.ring.mem (len + 2) (w.ctail + 4) len
        let newTail := (w.ctail + 4 + len) % size
        ({ w with ctail := newTail, ring := { w.ring with tail := newTail } }, some out)

/-! ## Filters (`kernel-driver/src/callbacks/filters.rs`)

Paths are modelled as `List Char`.  The Rust code compares UTF-8 bytes; all
needles and prefixes here are ASCII, and an ASCII byte can only match an
ASCII byte of the haystack (UTF-8 continuation bytes are ≥ 0x80), so the
character-level model coincides with the byte-level scan. -/

def to_ascii_lower (b : Char) : Char :=
  if 'A' ≤ b ∧ b ≤ 'Z' then Char.ofNat (b.toNat + 32) else b

def eq_ci (a b : Char) : Bool :=
  to_ascii_lower a = to_ascii_lower b

/-- `starts_with_ci`: the source checks `p.len() <= h.len()` and compares the
bytes pairwise with `eq_ci`; the recursion below does the same (a haystack
shorter than the pattern fails, an empty pattern succeeds). -/
def starts_with_ci : List Char → List Char → Bool
  | _, [] => true
  | [], _ :: _ => false
  | a :: h, b :: q => eq_ci a b && starts_with_ci h q

/-- The window scan of `contains_ci`: try `starts_with_ci` at every suffix of
the haystack.  Windows shorter than the needle fail inside `starts_with_ci`,
matching the source's `m > h.len()` pre-check. -/
def contains_ci_go (n : List Char) : List Char → Bool
  | [] => starts_with_ci [] n
  | a :: t => starts_with_ci (a :: t) n || contains_ci_go n t

/-- `contains_ci`: an empty needle returns `false` in the source. -/
def contains_ci (h n : List Char) : Bool :=
  if n.isEmpty then false else contains_ci_go n h

/-- `should_emit_process_create`: drop `pid < 100` and empty image paths. -/
def should_emit_process_create (pid : Nat) (image_path : List Char) : Bool :=
  if pid < 100 then false
  else if image_path.isEmpty then false
  else true

/-- `should_emit_image_load`: drop PID 4, `smss.exe`, tiny images, WinSxS and
the DriverStore file repository. -/
def should_emit_image_load (pid : Nat) (full_image_path : List Char) (image_size : Nat) : Bool :=
  if pid = 4 then false
  else if contains_ci full_image_path "\\system32\\smss.exe".toList
       || contains_ci full_image_path "\\smss.exe".toList then false
  else if image_size < 4 * 1024 then false
  else if contains_ci full_image_path "\\winsxs\\".toList then false
  else if contains_ci full_image_path "\\system32\\driverstore\\filerepository\\".toList then false
  else true

def VENDOR_KEY_PREFIX : List Char := "\\REGISTRY\\MACHINE\\SOFTWARE\\Gladix\\".toList

def SENSITIVE_PREFIXES : List (List Char) :=
  ["\\REGISTRY\\MACHINE\\SOFTWARE\\Microsoft\\Windows\\CurrentVersion\\Run".toList,
   "\\REGISTRY\\MACHINE\\SOFTWARE\\Microsoft\\Windows\\CurrentVersion\\RunOnce".toList,
   "\\REGISTRY\\USER\\".toList,
   "\\REGISTRY\\MACHINE\\SYSTEM\\CurrentControlSet\\Services\\".toList,
   "\\REGISTRY\\MACHINE\\SOFTWARE\\Microsoft\\Windows NT\\CurrentVersion\\Image File Execution Options\\".toList,
   "\\REGISTRY\\MACHINE\\SOFTWARE\\Microsoft\\Windows NT\\CurrentVersion\\Windows\\".toList,
   "\\REGISTRY\\MACHINE\\SOFTWARE\\Microsoft\\Windows NT\\CurrentVersion\\Winlogon\\".toList,
   "\\REGISTRY\\MACHINE\\SYSTEM\\CurrentControlSet\\Control\\Lsa\\".toList,
   "\\REGISTRY\\MACHINE\\SOFTWARE\\Microsoft\\Windows NT\\CurrentVersion\\Schedule\\TaskCache\\".toList]

/-- `is_registry_noise_path`: the four noisy substrings. -/
def is_registry_noise_path (path_nt : List Char) : Bool :=
  contains_ci path_nt "\\classes\\".toList ||
  contains_ci path_nt "\\muicache\\".toList ||
  contains_ci path_nt "\\appcompatflags\\".toList ||
  contains_ci path_nt "\\installer\\products\\".toList

/-- `should_emit_registry_setvalue`: keep the vendor subtree, the sensitive
prefixes and per-user `CurrentVersion\Run*` paths, then drop noise, then
retain by default. -/
def should_emit_registry_setvalue (key_path_nt : List Char) (_value_name : Option (List Char)) : Bool :=
  if starts_with_ci key_path_nt VENDOR_KEY_PREFIX then true
  else if SENSITIVE_PREFIXES.any (fun q => starts_with_ci key_path_nt q) then true
  else if contains_ci key_path_nt "\\currentversion\\run".toList
       || contains_ci key_path_nt "\\currentversion\\runonce".toList then true
  else if is_registry_noise_path key_path_nt then false
  else true

/-! ## Rundown gate and callback handlers
(`kernel-driver/src/callbacks/callback_guard.rs`, `common.rs`, `process.rs`,
`image_load.rs`)

`Rundown` models an `EX_RUNDOWN_REF`: `ExAcquireRundownProtection` succeeds
exactly when the rundown has not been completed; `ExRundownCompleted` blocks
all later acquires. -/

structure Rundown where
  completed : Bool
  inFlight : Nat
  deriving DecidableEq, Repr

def exAcquireRundownProtection (r : Rundown) : Bool × Rundown :=
  if r.completed then (false, r) else (true, { r with inFlight := r.inFlight + 1 })

def exReleaseRundownProtection (r : Rundown) : Rundown :=
  { r with inFlight := r.inFlight - 1 }

def exRundownCompleted (r : Rundown) : Rundown :=
  { r with completed := true }

/-- The module-level statics the callbacks see: `RUNDOWN_PTR` and `ACTIVE`
from `callback_guard.rs`, and `RING_PTR` from `common.rs` (null pointers are
`none`). -/
structure CallbacksSt where
  rundownPtr : Option Rundown
  ringPtr : Option KRing
  active : Nat
  deriving DecidableEq, Repr

/-- `callback_guard::acquire` (the body of `enter()`): null pointer means
failure; otherwise try `ExAcquireRundownProtection` and count on success. -/
def guard_acquire (s : CallbacksSt) : Bool × CallbacksSt :=
  match s.rundownPtr with
  | none => (false, s)
  | some r =>
    let (ok, r1) := exAcquireRundownProtection r
    if ok then (true, { s with rundownPtr := some r1, active := s.active + 1 })
    else (false, { s with rundownPtr := some r1 })

structure ProcessEvent where
  pid : Nat
  ppid : Nat
  image_path : List Char
  cmdline : List Char
  deriving DecidableEq, Repr

structure ImageLoadEvent where
  image_base : Nat
  image_size : Nat
  full_image_name : List Char
  process_id : Nat
  deriving DecidableEq, Repr

/-- `common::push_event`: read the published ring pointer (no-op when null),
serialize, push.  The protobuf codec is out of the specified core
("serialization schema details treated as an opaque byte payload"), so the
encoder is a parameter; `none` models `encode(..).is_err()`. -/
def push_event {E : Type} (encode : E → Option (List Nat)) (ev : E) (s : CallbacksSt) : CallbacksSt :=
  match s.ringPtr with
  | none => s
  | some ring =>
    match encode ev with
    | none => s
    | some buf => { s with ringPtr := some (push_bytes ring buf) }

/-- The creation-info record of the process callback (`PS_CREATE_NOTIFY_INFO`
fields the handler reads); a process-exit notification passes no record. -/
structure PsCreateNotifyInfo where
  parentProcessId : Nat
  imageFileName : List Char
  commandLine : List Char
  deriving DecidableEq, Repr

/-- `process_notify` (`callbacks/process.rs`): ignore exit notifications,
snapshot pid/ppid/path/cmdline, filter, push.  The handler body contains no
call into `callback_guard`. -/
def process_notify (encode : ProcessEvent → Option (List Nat)) (s : CallbacksSt)
    (pid : Nat) (info_ptr : Option PsCreateNotifyInfo) : CallbacksSt :=
  match info_ptr with
  | none => s
  | some info =>
    let ppid := info.parentProcessId
    let image_path := info.imageFileName
    let cmdline := info.commandLine
    if ¬ should_emit_process_create pid image_path then s
    else push_event encode { pid := pid, ppid := ppid, image_path := image_path,
                             cmdline := cmdline } s

/-- `load_image_notify` (`callbacks/image_load.rs`): bail on null pointers,
snapshot base/size/path, filter, push.  Again no `callback_guard` call. -/
def load_image_notify (encode : ImageLoadEvent → Option (List Nat)) (s : CallbacksSt)
    (full_image_name : Option (List Char)) (process_id : Nat)
    (image_info : Option (Nat × Nat)) : CallbacksSt :=
  match full_image_name, image_info with
  | some path, some info =>
    let image_base := info.1
    let image_size := info.2
    if ¬ should_emit_image_load process_id path image_size then s
    else push_event encode { image_base := image_base, image_size := image_size,
                             full_image_name := path, process_id := process_id } s
  | _, _ => s

/-! ## Pre-unload IOCTL handler
(`kernel-driver/src/communications/ioctl_dispatch.rs`, `handle_prepare_unload`)

The handler's externally visible actions are recorded as a trace of the
kernel/driver calls it makes; `UnloadEvent` lists every such call the
teardown paths could make (completing the rundown, per-family
unregistration, destroying the device or ring). -/

inductive UnloadEvent
  | rundownCompletedCall
  | unregReg
  | unregImg
  | unregProc
  | deleteDevice
  | deleteRing
  deriving DecidableEq, Repr

structure CallbackMask where
  proc : Bool
  img : Bool
  reg : Bool
  deriving DecidableEq, Repr

structure DeviceExtension where
  cb_mask : CallbackMask
  rundown : Rundown
  deriving DecidableEq, Repr

structure DeviceObject where
  ext : Option DeviceExtension
  deriving DecidableEq, Repr

def PASSIVE_LEVEL : Nat := 0

def STATUS_SUCCESS : Nat := 0

def STATUS_INVALID_DEVICE_STATE : Nat := 0xC0000184

/-- The calls `callbacks::unregister_all` makes (registry, image-load,
process, in that order; failures only logged). -/
def unregister_all_trace : List UnloadEvent :=
  [.unregReg, .unregImg, .unregProc]

/-- `handle_prepare_unload`: check IRQL, fall back to `unregister_all` when
the device object or extension is missing, otherwise unregister the families
named by the stored mask (registry, then image-load, then process) and
complete the request with success.  The returned trace records every
teardown-relevant call the handler performs. -/
def handle_prepare_unload (irql : Nat) (device_object : Option DeviceObject) :
    Nat × List UnloadEvent :=
  if irql ≠ PASSIVE_LEVEL then (STATUS_INVALID_DEVICE_STATE, [])
  else
    match device_object with
    | none => (STATUS_SUCCESS, unregister_all_trace)
    | some dev =>
      match dev.ext with
      | none => (STATUS_SUCCESS, unregister_all_trace)
      | some ext =>
        let mask := ext.cb_mask
        let t :=
          (if mask.reg then [UnloadEvent.unregReg] else []) ++
          (if mask.img then [UnloadEvent.unregImg] else []) ++
          (if mask.proc then [UnloadEvent.unregProc] else [])
        (STATUS_SUCCESS, t)

/-! ## Registration orchestrator (`kernel-driver/src/callbacks/mod.rs`)

Each family's `register()` wraps one kernel API whose status is supplied by
the environment (`none` = `STATUS_SUCCESS`, `some st` = failing status).
The trace records the ring publication, every registration attempt, every
rollback unregistration and the ring-pointer clear, in program order. -/

inductive CbEvent
  | setRing
  | regProc
  | regImg
  | regReg
  | unregProc
  | unregImg
  | unregReg
  | clearRing
  deriving DecidableEq, Repr

structure RegEnv where
  processStatus : Option Nat
  imageStatus : Option Nat
  /-- Outcome the kernel would give a registry registration.  The source's
  registry block is commented out, so `register_all` never consults it. -/
  registryStatus : Option Nat
  deriving DecidableEq, Repr

/-- `register_all`: publish the ring, attempt the process family, then the
image-load family; on failure roll back what succeeded, clear the ring
pointer and return the failing status; the registry block is commented out
in the source, so no registry attempt is made and `mask.reg` stays false. -/
def register_all (env : RegEnv) : Except Nat CallbackMask × List CbEvent :=
  match env.processStatus with
  | some st => (.error st, [.setRing, .regProc, .clearRing])
  | none =>
    match env.imageStatus with
    | some st => (.error st, [.setRing, .regProc, .regImg, .unregProc, .clearRing])
    | none =>
      (.ok { proc := true, img := true, reg := false }, [.setRing, .regProc, .regImg])

/-! ## Scan cache (`user-agent/src/scanner/cache.rs`)

`FxHashMap<PathBuf, Stamp>` is modelled as an association list whose key
order mirrors insertion order (only the oldest key is ever removed, so the
front of the list is the front of the eviction queue), and
`VecDeque<PathBuf>` as a `List String`. -/

def MAX_ENTRIES : Nat := 10000

abbrev Stamp := Nat × Nat

/-- The fields of `std::fs::Metadata` the cache reads: `modified()` (seconds
since the epoch, `none` when the FS cannot report it) and `len()`. -/
structure Metadata where
  modified : Option Nat
  size : Nat
  deriving DecidableEq, Repr

/-- `ScanCache::stamp`: a failing `modified()` falls back to the epoch. -/
def stamp (meta : Metadata) : Stamp :=
  (meta.modified.getD 0, meta.size)

def lookupStamp : List (String × Stamp) → String → Option Stamp
  | [], _ => none
  | (k, v) :: rest, p => if k = p then some v else lookupStamp rest p

/-- In-place overwrite of an existing key's value (the `Entry::Occupied`
branch of `update`). -/
def setStamp : List (String × Stamp) → String → Stamp → List (String × Stamp)
  | [], _, _ => []
  | (k, v) :: rest, p, st => if k = p then (k, st) :: rest else (k, v) :: setStamp rest p st

/-- `map.remove(&old)`. -/
def removeKey (m : List (String × Stamp)) (p : String) : List (String × Stamp) :=
  m.filter (fun kv => decide (kv.1 ≠ p))

structure ScanCache where
  map : List (String × Stamp)
  order : List String
  deriving DecidableEq, Repr

def emptyCache : ScanCache := { map := [], order := [] }

/-- `ScanCache::is_unchanged`. -/
def is_unchanged (c : ScanCache) (p : String) (meta : Metadata) : Bool :=
  lookupStamp c.map p == some (stamp meta)

/-- `ScanCache::update`: overwrite an occupied entry; otherwise insert, push
the key on the queue and, past `MAX_ENTRIES`, evict the oldest key from both
structures. -/
def update (c : ScanCache) (p : String) (meta : Metadata) : ScanCache :=
  let st := stamp meta
  match lookupStamp c.map p with
  | some _ => { c with map := setStamp c.map p st }
  | none =>
    let map1 := c.map ++ [(p, st)]
    let order1 := c.order ++ [p]
    if MAX_ENTRIES < order1.length then
      match order1 with
      | [] => { map := map1, order := [] }
      | old :: rest => { map := removeKey map1 old, order := rest }
    else { map := map1, order := order1 }

/-- A whole history of `update` calls starting from `ScanCache::default()`. -/
def applyOps (ops : List (String × Metadata)) : ScanCache :=
  ops.foldl (fun c op => update c op.1 op.2) emptyCache

/-! ## Hot-patch installer (`hooking-lib/src/hooks.rs`, `manager.rs`)

64-bit build (`PATCH_LEN = 13`, `GATEWAY_LEN = 11`).  Function pointers are
replaced by byte contents: a module maps export names to the first 20 bytes
of their stubs, and a `Hook` stores the saved prologue, the synthesized
gateway bytes, the prior page protection and the jump bytes written over the
target.  `HookResult.panicked` marks an aborting `unwrap()`/`assert!` — the
call does not return a value at all. -/

def PATCH_LEN : Nat := 13

def GATEWAY_LEN : Nat := 11

structure HookEnv where
  /-- Loaded modules: name → exports (export name → first 20 stub bytes). -/
  modules : List (String × List (String × List Nat))
  /-- Whether `VirtualProtect` on the target page succeeds. -/
  protectOk : Bool
  /-- The prior protection `VirtualProtect` reports on success. -/
  oldProtect : Nat
  deriving DecidableEq, Repr

def getModuleHandle (env : HookEnv) (dll : String) : Option (List (String × List Nat)) :=
  (env.modules.find? (fun m => m.1 = dll)).map (·.2)

def getProcAddress (fns : List (String × List Nat)) (f : String) : Option (List Nat) :=
  (fns.find? (fun e => e.1 = f)).map (·.2)

/-- `Hook::extract_syscall_id`: scan the 5-byte windows of the stub for
opcode `0xB8` and decode the following little-endian immediate; 0 when the
pattern is absent (fewer than 5 bytes remaining ends the scan). -/
def extract_syscall_id (stub : List Nat) : Nat :=
  match stub with
  | [] => 0
  | _ :: rest =>
    if stub.length < 5 then 0
    else if stub.headD 0 = 0xB8 then fromLe32 ((stub.drop 1).take 4)
    else extract_syscall_id rest

/-- `Hook::make_gateway` (64-bit): `4C 8B D1 | B8 <id32> | 0F 05 | C3`. -/
def make_gateway (id : Nat) : List Nat :=
  [0x4C, 0x8B, 0xD1, 0xB8] ++ le32 id ++ [0x0F, 0x05, 0xC3]

structure Hook where
  /-- The saved first `PATCH_LEN` bytes of the target. -/
  saved : List Nat
  /-- The gateway stub bytes. -/
  gateway : List Nat
  /-- Page protection before the change to executable-writable. -/
  old_protect : Nat
  /-- The jump bytes now occupying the first `PATCH_LEN` bytes of the
  target: `49 BA <detour64> | 41 FF E2`. -/
  patched : List Nat
  deriving DecidableEq, Repr

inductive HookResult
  | ok (h : Hook)
  | err (msg : String)
  | panicked
  deriving DecidableEq, Repr

/-- `Hook::new`: interior-NUL checks return `Err`; a failing
`GetModuleHandleA` returns `Err`; a failing `GetProcAddress` hits
`.unwrap()` and panics; a failing `VirtualProtect` returns `Err`; otherwise
the prologue is saved, the syscall id extracted, the gateway built and the
jump written. -/
def Hook.new (env : HookEnv) (dll func : String) (detour : Nat) : HookResult :=
  if (dll.toList.contains (Char.ofNat 0)) then .err "dll_name contains null"
  else if (func.toList.contains (Char.ofNat 0)) then .err "fn_name contains null"
  else
    match getModuleHandle env dll with
    | none => .err ("GetModuleHandleA failed: " ++ dll)
    | some fns =>
      match getProcAddress fns func with
      | none => .panicked
      | some target =>
        let saved := target.take PATCH_LEN
        let id := extract_syscall_id (target.take 20)
        let gateway := make_gateway id
        if env.protectOk = false then .err "VirtualProtect failed"
        else
          let patch := [0x49, 0xBA] ++ le64 detour ++ [0x41, 0xFF, 0xE2]
          .ok { saved := saved, gateway := gateway, old_protect := env.oldProtect,
                patched := patch }

structure HookEntry where
  dll : String
  func : String
  detour : Nat
  deriving DecidableEq, Repr

inductive InstallResult
  /-- All entries installed; the live list in installation order. -/
  | ok (live : List Hook)
  /-- An `unwrap()` aborted the walk; the hooks installed so far stay
  patched in place. -/
  | panicked (live : List Hook)
  deriving DecidableEq, Repr

/-- `HookManager::install_all`: for each entry call
`Hook::new(..).unwrap()` and push the hook onto `live`.  An `Err` or a panic
inside `Hook::new` aborts the loop with the earlier hooks still installed;
no removal happens. -/
def install_all (env : HookEnv) : List HookEntry → List Hook → InstallResult
  | [], live => .ok live
  | e :: rest, live =>
    match Hook.new env e.dll e.func e.detour with
    | .ok h => install_all env rest (live ++ [h])
    | .err _ => .panicked live
    | .panicked => .panicked live

/-! ## Concrete instances used by the witnesses and counterexamples -/

/-- Empty mapped ring of capacity 16 shared by the ring counterexamples. -/
def ring16 : KRing :=
  { mem := List.replicate 16 0, head := 0, tail := 0, dropped := 0, cap := 16, mapped := true }

/-- Concrete ring for the C7 witness: capacity 8, empty. -/
def c7ring : KRing :=
  { mem := List.replicate 8 0, head := 0, tail := 0, dropped := 0, cap := 8, mapped := true }

/-- First payload of the C3 run: 9 bytes, filling the ring so that the next
frame's length prefix straddles the wrap boundary. -/
def c3P1 : List Nat := [1, 2, 3, 4, 5, 6, 7, 8, 9]

/-- Second payload of the C3 run: the single byte 0x41. -/
def c3P2 : List Nat := [65]

def c3w0 : World := { ring := ring16, ctail := 0 }

def c3w1 : World := { c3w0 with ring := push_bytes c3w0.ring c3P1 }

def c3r1 : World × Option (List Nat) := read_next c3w1

def c3w2 : World := { c3r1.1 with ring := push_bytes c3r1.1.ring c3P2 }

def c3r2 : World × Option (List Nat) := read_next c3w2

/-- Payload of exactly capacity − 4 bytes for the C4 counterexample. -/
def c4P1 : List Nat := [1, 2, 3, 4, 5, 6, 7, 8, 9, 10, 11, 12]

/-- Corrupted world for the C6 witness: prefix `FF FF FF FF` at the tail. -/
def c6w : World :=
  { ring := { mem := [255, 255, 255, 255] ++ List.replicate 12 0, head := 8, tail := 0,
              dropped := 0, cap := 16, mapped := true },
    ctail := 0 }

/-- Device extension for the C1 run: all three families registered, rundown
still open. -/
def c1ext : DeviceExtension :=
  { cb_mask := { proc := true, img := true, reg := true },
    rundown := { completed := false, inFlight := 0 } }

/-- Callback statics for the C2 run: rundown published and already
completed, ring published and empty (capacity 64). -/
def c2st : CallbacksSt :=
  { rundownPtr := some { completed := true, inFlight := 0 },
    ringPtr := some { mem := List.replicate 64 0, head := 0, tail := 0, dropped := 0,
                      cap := 64, mapped := true },
    active := 0 }

/-- A concrete 3-byte serialization for the C2 run. -/
def c2enc : ProcessEvent → Option (List Nat) := fun _ => some [65, 66, 67]

def c2info : PsCreateNotifyInfo :=
  { parentProcessId := 4, imageFileName := "C:\\x.exe".toList, commandLine := [] }

/-- First 20 bytes of a typical `Nt*` stub (syscall id 0x26). -/
def c5stub : List Nat :=
  [0x4C, 0x8B, 0xD1, 0xB8, 0x26, 0x00, 0x00, 0x00, 0xF6, 0x04,
   0x25, 0x08, 0x03, 0xFE, 0x7F, 0x01, 0x75, 0x03, 0x0F, 0x05]

/-- Environment for the C5 run: `ntdll.dll` is loaded and exports
`NtOpenProcess` only; page-protection changes succeed. -/
def c5env : HookEnv :=
  { modules := [("ntdll.dll", [("NtOpenProcess", c5stub)])],
    protectOk := true, oldProtect := 0x20 }

/-- The hook `Hook::new` builds for `NtOpenProcess` in `c5env` with detour
address 4096. -/
def c5hook : Hook :=
  { saved := c5stub.take PATCH_LEN, gateway := make_gateway 0x26, old_protect := 0x20,
    patched := [0x49, 0xBA] ++ le64 4096 ++ [0x41, 0xFF, 0xE2] }

def mdA : Metadata := { modified := some 5, size := 7 }

def mdB : Metadata := { modified := some 11, size := 13 }

/-- A vendor-subtree path that also contains the `\classes\` noise
substring, for the C10 witness. -/
def c10path : List Char :=
  VENDOR_KEY_PREFIX ++ "x\\classes\\y".toList

/-- Structural invariant tying the scan cache's two containers together: the
map's key sequence is exactly the eviction queue, the queue has no
duplicates, and it never exceeds `MAX_ENTRIES`. -/
def WF (c : ScanCache) : Prop :=
  c.map.map Prod.fst = c.order ∧ c.order.Nodup ∧ c.order.length ≤ MAX_ENTRIES

/-!
# Theorems

One theorem per claim (C1–C10), preceded by the helper lemmas its proof
needs; witness theorems evaluate the quantified theorems on concrete
inputs.
-/

/-- C1: the claim states that the UNREGISTER_CALLBACKS (0x803) handler, run
at passive level with a valid device object and extension, completes the
rundown barrier so that subsequent rundown acquisitions fail, then
unregisters each family per the stored mask, then returns success.  The
code unregisters per the mask and returns success without destroying the
device or ring, but it never calls `begin_unload`/`ExRundownCompleted`: the
trace of the handler contains no rundown-completion call, and an
acquisition performed on the device's rundown after the handler returns
still succeeds. -/
theorem prepare_unload_skips_rundown_completion :
    handle_prepare_unload PASSIVE_LEVEL (some { ext := some c1ext }) =
      (STATUS_SUCCESS, [.unregReg, .unregImg, .unregProc]) ∧
    UnloadEvent.rundownCompletedCall ∉
      (handle_prepare_unload PASSIVE_LEVEL (some { ext := some c1ext })).2 ∧
    UnloadEvent.deleteDevice ∉
      (handle_prepare_unload PASSIVE_LEVEL (some { ext := some c1ext })).2 ∧
    UnloadEvent.deleteRing ∉
      (handle_prepare_unload PASSIVE_LEVEL (some { ext := some c1ext })).2 ∧
    (exAcquireRundownProtection c1ext.rundown).1 = true := by
  decide

/-- C2: the claim states that every callback handler acquires the rundown
gate on entry and that after the barrier has been completed no handler
invocation pushes an event into the ring.  In the code the handlers never
call `callback_guard::enter`: with the published rundown already completed
(so that an acquisition would fail) and the ring published and empty, a
process-create invocation still pushes a frame — the ring's head moves from
0 to 7 (4-byte prefix plus the 3-byte serialized event). -/
theorem process_notify_pushes_after_rundown_completed :
    (guard_acquire c2st).1 = false ∧
    (process_notify c2enc c2st 1234 (some c2info)).ringPtr.map KRing.head = some 7 := by
  decide

/-- C3: the claim states that, absent drops, the consumer returns every
pushed payload byte-for-byte, including frames that straddle the wrap
boundary.  Concretely on a capacity-16 ring: push a 9-byte payload, read it
back (correctly), push the 1-byte payload `[0x41]` — its length prefix now
straddles the wrap boundary, so the consumer's payload copy starts at the
unreduced offset tail + 4 = 17 > 16 and reads outside the data region —
and the second read returns `[0]`, not `[0x41]`, with `dropped` still 0. -/
theorem read_next_wrap_straddle_bug :
    c3r1.2 = some c3P1 ∧ c3r2.1.ring.dropped = 0 ∧
    c3r2.2 = some [0] ∧ c3r2.2 ≠ some c3P2 := by
  decide

/-- C4: the claim states that after a successful push of exactly C − 4
bytes into an empty ring, any non-empty push performed before the consumer
reads is dropped with `dropped` incremented.  In the code the full-capacity
frame advances head by C mod C = 0, so head equals tail again, the ring
appears empty, and the subsequent 1-byte push succeeds (head moves to 5)
with `dropped` still 0. -/
theorem push_full_frame_then_push_not_dropped :
    (push_bytes ring16 c4P1).dropped = 0 ∧
    (push_bytes ring16 c4P1).head = 0 ∧
    (push_bytes ring16 c4P1).mem = [12, 0, 0, 0, 1, 2, 3, 4, 5, 6, 7, 8, 9, 10, 11, 12] ∧
    (push_bytes (push_bytes ring16 c4P1) [170]).dropped = 0 ∧
    (push_bytes (push_bytes ring16 c4P1) [170]).head = 5 := by
  decide

/-- C5: the claim states that when module lookup, function lookup or the
page-protection change fails, the installer returns a typed error naming
the failing step (no panic), the manager does not register the record, and
partially installed hooks are removed in reverse order.  In the code
`GetProcAddress(..).unwrap()` panics when the export is missing, and
`install_all` unwraps every `Hook::new` result, so the walk aborts with the
previously installed hook still patched in place and never removed. -/
theorem hook_install_panics_on_missing_export :
    Hook.new c5env "ntdll.dll" "NtDoesNotExist" 4096 = .panicked ∧
    Hook.new c5env "ntdll.dll" "NtOpenProcess" 4096 = .ok c5hook ∧
    install_all c5env
      [{ dll := "ntdll.dll", func := "NtOpenProcess", detour := 4096 },
       { dll := "ntdll.dll", func := "NtDoesNotExist", detour := 4096 }] [] =
      .panicked [c5hook] := by
  decide

/-- C6: whenever the consumer is not caught up and the 4-byte length prefix
at its private tail decodes to `L = 0` or `L > C − 4`, `read_next` sets the
private tail to head, mirrors it into the shared header, and returns none,
abandoning everything previously buffered. -/
theorem read_next_resync (w : World) (hne : w.ctail ≠ w.ring.head)
    (hL : decodedLen w = 0 ∨ decodedLen w > w.ring.cap - 4) :
    read_next w = ({ w with
                     ctail := w.ring.head
                     ring := { w.ring with tail := w.ring.head } }, none) := by
  unfold read_next
  rw [if_neg hne, if_pos hL]

/-- Witness for C6 at a concrete corrupted ring: the prefix at the tail is
`FF FF FF FF`, far above C − 4 = 12, and `read_next` resynchronises. -/
theorem read_next_resync_witness :
    c6w.ctail ≠ c6w.ring.head ∧
    decodedLen c6w > c6w.ring.cap - 4 ∧
    read_next c6w = ({ c6w with
                       ctail := c6w.ring.head
                       ring := { c6w.ring with tail := c6w.ring.head } }, none) :=
  ⟨by decide, by decide, read_next_resync c6w (by decide) (Or.inr (by decide))⟩

/-- C7: a push into a mapped ring drops (incrementing `dropped` by exactly 1
and leaving head and the contents untouched) precisely when `4 + L` exceeds
the capacity or the free space computed from the current cursors; otherwise
`dropped` is unchanged and head advances by exactly `(4 + L) mod C`. -/
theorem push_bytes_cases (r : KRing) (payload : List Nat) (hm : r.mapped = true) :
    (4 + payload.length > r.cap ∨ 4 + payload.length > ringFree r →
      push_bytes r payload = { r with dropped := r.dropped + 1 }) ∧
    (¬(4 + payload.length > r.cap ∨ 4 + payload.length > ringFree r) →
      (push_bytes r payload).dropped = r.dropped ∧
      (push_bytes r payload).head = (r.head + (4 + payload.length)) % r.cap) := by
  simp only [push_bytes, ringFree, hm]
  constructor
  · intro h
    split
    · next hx => exact absurd hx (by decide)
    · split
      · rfl
      · split
        · rfl
        · next hc hf => omega
  · intro h
    push_neg at h
    obtain ⟨h1, h2⟩ := h
    split
    · next hx => exact absurd hx (by decide)
    · split
      · next hc => omega
      · split
        · next hf => omega
        · exact ⟨rfl, rfl⟩

/-- Witness for C7: pushing 3 bytes into the empty capacity-8 ring is not a
drop, leaves `dropped` at 0 and advances head to 7. -/
theorem push_bytes_cases_witness :
    (push_bytes c7ring [1, 2, 3]).dropped = c7ring.dropped ∧
    (push_bytes c7ring [1, 2, 3]).head = (c7ring.head + (4 + [1, 2, 3].length)) % c7ring.cap :=
  (push_bytes_cases c7ring [1, 2, 3] rfl).2 (by decide)

/-- Counterexample to C8 as stated: with an environment in which every
family's registration would succeed, `register_all` succeeds with
`mask.reg = false` and its trace contains no registry registration attempt
— the registry block of the source is commented out, so the claimed order
process → image-load → registry is not what the code attempts. -/
theorem register_all_no_registry_attempt :
    (register_all { processStatus := none, imageStatus := none, registryStatus := none }).1 =
      .ok { proc := true, img := true, reg := false } ∧
    CbEvent.regReg ∉
      (register_all { processStatus := none, imageStatus := none, registryStatus := none }).2 :=
  ⟨rfl, by decide⟩

/-- C8 amended: registration attempts process then image-load (the registry
family is never attempted); on the first failure it unregisters the
families that succeeded in reverse order, clears the published ring pointer
and returns the failing status; on success it returns a mask recording
exactly the registered families — process and image-load, never registry. -/
theorem register_all_amended (env : RegEnv) :
    (env.processStatus = none → env.imageStatus = none →
      register_all env = (.ok { proc := true, img := true, reg := false },
        [.setRing, .regProc, .regImg])) ∧
    (∀ st, env.processStatus = some st →
      register_all env = (.error st, [.setRing, .regProc, .clearRing])) ∧
    (∀ st, env.processStatus = none → env.imageStatus = some st →
      register_all env = (.error st, [.setRing, .regProc, .regImg, .unregProc, .clearRing])) ∧
    CbEvent.regReg ∉ (register_all env).2 := by
  obtain ⟨p, i, g⟩ := env
  cases p <;> cases i <;> simp [register_all]

/-- Witness for C8: a failing image-load registration rolls back the
process family and clears the ring pointer. -/
theorem register_all_amended_witness :
    register_all { processStatus := none, imageStatus := some 0xC0000001,
                   registryStatus := none } =
      (.error 0xC0000001, [.setRing, .regProc, .regImg, .unregProc, .clearRing]) :=
  (register_all_amended _).2.2.1 0xC0000001 rfl rfl

/-- An ASCII-case-insensitive match of a concatenated pattern yields a match
of its first part. -/
theorem starts_with_ci_of_append (h a b : List Char) :
    starts_with_ci h (a ++ b) = true → starts_with_ci h a = true := by
  induction a generalizing h with
  | nil => intro _; cases h <;> rfl
  | cons x xs ih =>
    intro hyp
    cases h with
    | nil => simp [starts_with_ci] at hyp
    | cons c cs =>
      simp only [List.cons_append, starts_with_ci, Bool.and_eq_true] at hyp ⊢
      exact ⟨hyp.1, ih cs hyp.2⟩

/-- Window-scan monotonicity: containing `a ++ b` implies containing `a`. -/
theorem contains_ci_go_of_append (a b : List Char) :
    ∀ h, contains_ci_go (a ++ b) h = true → contains_ci_go a h = true := by
  intro h
  induction h with
  | nil =>
    simp only [contains_ci_go]
    exact starts_with_ci_of_append [] a b
  | cons c t ih =>
    simp only [contains_ci_go, Bool.or_eq_true]
    rintro (h1 | h2)
    · exact Or.inl (starts_with_ci_of_append _ a b h1)
    · exact Or.inr (ih h2)

/-- `contains_ci` monotonicity for a non-empty first part. -/
theorem contains_ci_of_append (h a b : List Char) (ha : a.isEmpty = false) :
    contains_ci h (a ++ b) = true → contains_ci h a = true := by
  unfold contains_ci
  cases a with
  | nil => simp at ha
  | cons x xs =>
    simp only [List.cons_append, List.isEmpty_cons, if_neg (by simp : ¬((false : Bool) = true))]
    exact contains_ci_go_of_append (x :: xs) b h

/-- C10: the registry set-value filter evaluates its keep rules before its
drop rules and retains by default — a path under the vendor subtree, under
a sensitive prefix, or containing `\currentversion\run` is emitted
regardless of any noise substring it contains, and a path matching neither
the keep rules nor the noise substrings is emitted as well. -/
theorem should_emit_registry_setvalue_policy (p : List Char) (v : Option (List Char)) :
    (starts_with_ci p VENDOR_KEY_PREFIX = true →
      should_emit_registry_setvalue p v = true) ∧
    (∀ q ∈ SENSITIVE_PREFIXES, starts_with_ci p q = true →
      should_emit_registry_setvalue p v = true) ∧
    (contains_ci p "\\currentversion\\run".toList = true →
      should_emit_registry_setvalue p v = true) ∧
    (starts_with_ci p VENDOR_KEY_PREFIX = false →
      (∀ q ∈ SENSITIVE_PREFIXES, starts_with_ci p q = false) →
      contains_ci p "\\currentversion\\run".toList = false →
      is_registry_noise_path p = false →
      should_emit_registry_setvalue p v = true) := by
  refine ⟨?_, ?_, ?_, ?_⟩
  · intro h
    unfold should_emit_registry_setvalue
    rw [if_pos h]
  · intro q hq h
    unfold should_emit_registry_setvalue
    by_cases h0 : starts_with_ci p VENDOR_KEY_PREFIX = true
    · rw [if_pos h0]
    · rw [if_neg h0, if_pos (List.any_eq_true.mpr ⟨q, hq, h⟩)]
  · intro h
    unfold should_emit_registry_setvalue
    by_cases h0 : starts_with_ci p VENDOR_KEY_PREFIX = true
    · rw [if_pos h0]
    · rw [if_neg h0]
      by_cases h1 : SENSITIVE_PREFIXES.any (fun q => starts_with_ci p q) = true
      · rw [if_pos h1]
      · rw [if_neg h1, if_pos (by rw [h]; rfl)]
  · intro h0 hall h2 h3
    have h2' : contains_ci p "\\currentversion\\runonce".toList = false := by
      cases hron : contains_ci p "\\currentversion\\runonce".toList with
      | false => rfl
      | true =>
        have hsplit : ("\\currentversion\\runonce".toList : List Char) =
            "\\currentversion\\run".toList ++ "once".toList := by decide
        rw [hsplit] at hron
        have := contains_ci_of_append p "\\currentversion\\run".toList "once".toList
          (by decide) hron
        rw [this] at h2
        exact absurd h2 (by simp)
    have hany : SENSITIVE_PREFIXES.any (fun q => starts_with_ci p q) = false := by
      rw [List.any_eq_false]
      intro q hq
      simp [hall q hq]
    unfold should_emit_registry_setvalue
    rw [if_neg (by rw [h0]; exact Bool.false_ne_true),
      if_neg (by rw [hany]; exact Bool.false_ne_true),
      if_neg (by rw [h2, h2']; exact Bool.false_ne_true),
      if_neg (by rw [h3]; exact Bool.false_ne_true)]

/-- Witness for C10: a vendor-subtree key path that also contains the
`\classes\` noise substring is still emitted. -/
theorem registry_policy_witness :
    starts_with_ci c10path VENDOR_KEY_PREFIX = true ∧
    is_registry_noise_path c10path = true ∧
    should_emit_registry_setvalue c10path none = true :=
  ⟨by decide, by decide,
   (should_emit_registry_setvalue_policy c10path none).1 (by decide)⟩

/-- An association-list lookup misses exactly when the key is absent. -/
theorem lookupStamp_eq_none (m : List (String × Stamp)) (p : String) :
    lookupStamp m p = none ↔ p ∉ m.map Prod.fst := by
  induction m with
  | nil => simp [lookupStamp]
  | cons kv rest ih =>
    obtain ⟨k, v⟩ := kv
    simp only [lookupStamp, List.map_cons, List.mem_cons]
    by_cases h : k = p
    · subst h
      simp
    · rw [if_neg h, ih]
      constructor
      · intro hx
        rintro (rfl | hmem)
        · exact h rfl
        · exact hx hmem
      · intro hx hmem
        exact hx (Or.inr hmem)

/-- Overwriting a value in place leaves the key sequence unchanged. -/
theorem setStamp_keys (m : List (String × Stamp)) (p : String) (st : Stamp) :
    (setStamp m p st).map Prod.fst = m.map Prod.fst := by
  induction m with
  | nil => rfl
  | cons kv rest ih =>
    obtain ⟨k, v⟩ := kv
    simp only [setStamp]
    by_cases h : k = p
    · rw [if_pos h]
      simp
    · rw [if_neg h]
      simp [ih]

theorem setStamp_length (m : List (String × Stamp)) (p : String) (st : Stamp) :
    (setStamp m p st).length = m.length := by
  have h := congrArg List.length (setStamp_keys m p st)
  simpa using h

theorem lookupStamp_setStamp_self (m : List (String × Stamp)) (p : String) (st : Stamp)
    (h : p ∈ m.map Prod.fst) : lookupStamp (setStamp m p st) p = some st := by
  induction m with
  | nil => simp at h
  | cons kv rest ih =>
    obtain ⟨k, v⟩ := kv
    simp only [setStamp]
    by_cases hk : k = p
    · rw [if_pos hk]
      simp [lookupStamp, hk]
    · rw [if_neg hk]
      simp only [lookupStamp, if_neg hk]
      apply ih
      simp only [List.map_cons, List.mem_cons] at h
      rcases h with h | h
      · exact absurd h.symm hk
      · exact h

theorem lookupStamp_append_sing (m : List (String × Stamp)) (p : String) (st : Stamp)
    (h : p ∉ m.map Prod.fst) : lookupStamp (m ++ [(p, st)]) p = some st := by
  induction m with
  | nil => simp [lookupStamp]
  | cons kv rest ih =>
    obtain ⟨k, v⟩ := kv
    simp only [List.map_cons, List.mem_cons] at h
    push_neg at h
    have hkp : ¬(k = p) := fun hk => h.1 hk.symm
    rw [List.cons_append]
    simp only [lookupStamp, if_neg hkp]
    exact ih h.2

/-- Removing the head key of a list whose tail does not repeat it drops
exactly the head. -/
theorem removeKey_head (k : String) (v : Stamp) (m : List (String × Stamp))
    (h : k ∉ m.map Prod.fst) : removeKey ((k, v) :: m) k = m := by
  unfold removeKey
  rw [List.filter_cons_of_neg (by simp)]
  apply List.filter_eq_self.mpr
  intro kv hkv
  simp only [decide_eq_true_eq]
  intro heq
  have hmem : kv.1 ∈ m.map Prod.fst := List.mem_map_of_mem Prod.fst hkv
  rw [heq] at hmem
  exact h hmem

/-- Reduction of `update` in the occupied branch. -/
theorem update_occupied (c : ScanCache) (p : String) (meta : Metadata) (st0 : Stamp)
    (hl : lookupStamp c.map p = some st0) :
    update c p meta = { c with map := setStamp c.map p (stamp meta) } := by
  simp only [update, hl]

/-- Reduction of `update` in the vacant branch without eviction. -/
theorem update_vacant_noevict (c : ScanCache) (p : String) (meta : Metadata)
    (hl : lookupStamp c.map p = none)
    (hsmall : ¬ MAX_ENTRIES < (c.order ++ [p]).length) :
    update c p meta = { map := c.map ++ [(p, stamp meta)], order := c.order ++ [p] } := by
  simp only [update, hl]
  rw [if_neg hsmall]

/-- Reduction of `update` in the vacant branch with eviction of the oldest
queue entry. -/
theorem update_vacant_evict (c : ScanCache) (p : String) (meta : Metadata)
    (hl : lookupStamp c.map p = none) (o0 : String) (ot : List String)
    (hord : c.order = o0 :: ot)
    (hbig : MAX_ENTRIES < (c.order ++ [p]).length) :
    update c p meta = { map := removeKey (c.map ++ [(p, stamp meta)]) o0,
                        order := ot ++ [p] } := by
  simp only [update, hl]
  rw [if_pos hbig, hord, List.cons_append]

/-- Core characterization of `ScanCache::update` under the structural
invariant: the invariant is preserved, the updated key subsequently looks
up to the new stamp, and updating an already-present key does not change
the map's size. -/
theorem update_char {c : ScanCache} (h : WF c) (p : String) (meta : Metadata) :
    WF (update c p meta) ∧
    lookupStamp (update c p meta).map p = some (stamp meta) ∧
    (lookupStamp c.map p ≠ none →
      (update c p meta).map.length = c.map.length) := by
  obtain ⟨hkeys, hnodup, hlen⟩ := h
  cases hl : lookupStamp c.map p with
  | some st0 =>
    have hp : p ∈ c.map.map Prod.fst := by
      by_contra hc
      rw [(lookupStamp_eq_none _ _).mpr hc] at hl
      cases hl
    rw [update_occupied c p meta st0 hl]
    refine ⟨⟨?_, hnodup, hlen⟩, ?_, fun _ => ?_⟩
    · show (setStamp c.map p (stamp meta)).map Prod.fst = c.order
      rw [setStamp_keys]
      exact hkeys
    · show lookupStamp (setStamp c.map p (stamp meta)) p = some (stamp meta)
      exact lookupStamp_setStamp_self _ _ _ hp
    · show (setStamp c.map p (stamp meta)).length = c.map.length
      exact setStamp_length _ _ _
  | none =>
    have hpnot : p ∉ c.map.map Prod.fst := (lookupStamp_eq_none _ _).mp hl
    have hpord : p ∉ c.order := by
      rw [← hkeys]
      exact hpnot
    by_cases hbig : MAX_ENTRIES < (c.order ++ [p]).length
    · -- eviction: the queue is at capacity, so it is non-empty
      cases hord : c.order with
      | nil =>
        exfalso
        rw [hord] at hbig
        simp [MAX_ENTRIES] at hbig
      | cons o0 ot =>
        cases hmap : c.map with
        | nil =>
          exfalso
          rw [hmap, hord] at hkeys
          simp at hkeys
        | cons kv0 mrest =>
          obtain ⟨k0, v0⟩ := kv0
          rw [hmap, hord] at hkeys
          simp only [List.map_cons, List.cons.injEq] at hkeys
          obtain ⟨hk0, hmk⟩ := hkeys
          rw [hord] at hpord hnodup hlen
          simp only [List.mem_cons, not_or] at hpord
          simp only [List.nodup_cons] at hnodup
          have hk0notail : k0 ∉ (mrest ++ [(p, stamp meta)]).map Prod.fst := by
            rw [List.map_append, hmk]
            simp only [List.map_cons, List.map_nil, List.mem_append, List.mem_cons,
              List.not_mem_nil, or_false, not_or]
            refine ⟨?_, fun hx => hpord.1 (by rw [← hx]; exact hk0)⟩
            rw [hk0]
            exact hnodup.1
          have hrem : removeKey (c.map ++ [(p, stamp meta)]) o0 = mrest ++ [(p, stamp meta)] := by
            rw [hmap, List.cons_append, ← hk0]
            exact removeKey_head k0 v0 (mrest ++ [(p, stamp meta)]) hk0notail
          rw [update_vacant_evict c p meta hl o0 ot hord hbig, hrem]
          refine ⟨⟨?_, ?_, ?_⟩, ?_, fun hne => absurd rfl hne⟩
          · show (mrest ++ [(p, stamp meta)]).map Prod.fst = ot ++ [p]
            rw [List.map_append, hmk]
            simp
          · show (ot ++ [p]).Nodup
            rw [List.nodup_append]
            exact ⟨hnodup.2, List.nodup_singleton p,
              fun a ha hb => hpord.2 ((List.mem_singleton.mp hb) ▸ ha)⟩
          · show (ot ++ [p]).length ≤ MAX_ENTRIES
            simp only [List.length_append, List.length_cons, List.length_nil]
            simp only [List.length_cons] at hlen
            omega
          · show lookupStamp (mrest ++ [(p, stamp meta)]) p = some (stamp meta)
            apply lookupStamp_append_sing
            rw [hmk]
            exact hpord.2
    · -- no eviction: plain insertion at the back
      rw [update_vacant_noevict c p meta hl hbig]
      refine ⟨⟨?_, ?_, ?_⟩, ?_, fun hne => absurd rfl hne⟩
      · show (c.map ++ [(p, stamp meta)]).map Prod.fst = c.order ++ [p]
        rw [List.map_append, hkeys]
        simp
      · show (c.order ++ [p]).Nodup
        rw [List.nodup_append]
        exact ⟨hnodup, List.nodup_singleton p,
          fun a ha hb => hpord ((List.mem_singleton.mp hb) ▸ ha)⟩
      · show (c.order ++ [p]).length ≤ MAX_ENTRIES
        simp only [List.length_append, List.length_cons, List.length_nil] at hbig ⊢
        omega
      · show lookupStamp (c.map ++ [(p, stamp meta)]) p = some (stamp meta)
        exact lookupStamp_append_sing _ _ _ hpnot

/-- Every history of updates preserves the structural invariant. -/
theorem foldl_update_WF (ops : List (String × Metadata)) (c : ScanCache) (h : WF c) :
    WF (ops.foldl (fun c op => update c op.1 op.2) c) := by
  induction ops generalizing c with
  | nil => exact h
  | cons op rest ih => exact ih _ (update_char h op.1 op.2).1

theorem applyOps_WF (ops : List (String × Metadata)) : WF (applyOps ops) :=
  foldl_update_WF ops emptyCache ⟨rfl, List.nodup_nil, by simp [emptyCache, MAX_ENTRIES]⟩

/-- C9: after any sequence of `ScanCache::update` calls the cache holds at
most 10,000 entries and the eviction queue and the map have equal length;
an `update(path, meta)` followed by `is_unchanged(path, meta)` with the
same metadata returns true; and updating an already-present path does not
grow the map. -/
theorem scan_cache_props (ops : List (String × Metadata)) (p : String) (meta : Metadata) :
    (applyOps ops).map.length ≤ MAX_ENTRIES ∧
    (applyOps ops).order.length = (applyOps ops).map.length ∧
    is_unchanged (update (applyOps ops) p meta) p meta = true ∧
    (lookupStamp (applyOps ops).map p ≠ none →
      (update (applyOps ops) p meta).map.length = (applyOps ops).map.length) := by
  have hwf := applyOps_WF ops
  have hchar := update_char hwf p meta
  obtain ⟨hkeys, hnodup, hlen⟩ := hwf
  have hmaplen : (applyOps ops).map.length = (applyOps ops).order.length := by
    rw [← hkeys]
    simp
  refine ⟨by omega, hmaplen.symm, ?_, hchar.2.2⟩
  simp [is_unchanged, hchar.2.1]

/-- Witness for C9: one concrete update of a fresh path is later reported
unchanged, and re-updating a present path keeps the map size at 1. -/
theorem scan_cache_props_witness :
    is_unchanged (update (applyOps [("a", mdA)]) "b" mdB) "b" mdB = true ∧
    (update (applyOps [("a", mdA)]) "a" mdB).map.length = (applyOps [("a", mdA)]).map.length :=
  ⟨(scan_cache_props [("a", mdA)] "b" mdB).2.2.1,
   (scan_cache_props [("a", mdA)] "a" mdB).2.2.2 (by decide)⟩

end Gladix
